import Mathlib

/-!
Verification of the scrapy-newsutils core: edit/version resolution
(`newsutils/pipelines.py`), day partition (`newsutils/crawl/day.py`) and
NLP similarity / metapost synthesis (`newsutils/nlp.py`).

The Python code is shallowly embedded: each Python function of interest is
translated to an executable Lean definition over an explicit `Post` record.
MongoDB, the vectorizer and the summarizer are external collaborators; their
outputs appear as explicit parameters.  Python exceptions are modelled by
`Option`/`Except` results (`none`/`.error` = the call raises).
-/

/-- A BSON ObjectId.  Only the two facets the code uses are kept: its
generation timestamp (`ObjectId.generation_time`, seconds resolution) and its
string form (`str(oid)`). -/
structure Oid where
  genTime : Nat
  idStr : String
deriving DecidableEq, Repr

/-- One entry of a persisted relationship tier: the db dict
`\x7b db_id_field: <ObjectId>, score: <float> \x7d` built by
`DayNlp.save_similarity`.  `rid` is the reference ObjectId (string form). -/
structure Ref where
  rid : String
  score : ℚ
deriving DecidableEq, Repr

/-- The value stored under a post's `version` key: ordinary posts carry a
monotonically increased integer, metaposts carry an md5 hex digest string. -/
inductive VersionVal
  | vint (n : Int)
  | vhash (s : String)
deriving DecidableEq, Repr

/-- A post document (`newsutils.conf.post_item.Post` plus settings-injected
computed fields: db id, natural key `short_link`, NLP fields).  Author and
paper records only ever undergo (in)equality tests and de-duplication, so they
are modelled by an opaque carrier with decidable equality (`String`). -/
structure Post where
  id : Option Oid := none
  country : String := ""
  link : String := ""
  short_link : String := ""
  link_hash : String := ""
  type : String := ""
  title : String := ""
  text : String := ""
  excerpt : String := ""
  publish_time : String := ""
  modified_time : String := ""
  top_image : String := ""
  images : List String := []
  videos : List String := []
  authors : List String := []
  keywords : List String := []
  tags : List String := []
  paper : String := ""
  version : VersionVal := .vint 1
  is_draft : Bool := false
  is_scrap : Bool := false
  category : String := ""
  caption : String := ""
  summary : String := ""
  sum_score_summary : ℚ := 0
  sum_score_caption : ℚ := 0
  sum_score_category : ℚ := 0
  siblings : List Ref := []
  related : List Ref := []
deriving DecidableEq, Repr

/-- The fields of the `Post` item (`list(self.post.fields)`). -/
inductive PostField
  | id | country | link | short_link | link_hash | type | title | text
  | excerpt | publish_time | modified_time | top_image | images | videos
  | authors | keywords | tags | paper | version | is_draft | is_scrap
  | category | caption | summary | siblings | related
deriving DecidableEq, Repr

/-- A dynamically typed post field value, as seen by `have_changed`. -/
inductive FVal
  | vStr (s : String)
  | vInt (n : Int)
  | vBool (b : Bool)
  | vOidOpt (o : Option Oid)
  | vStrs (l : List String)
  | vRefs (l : List Ref)
deriving DecidableEq, Repr

/-- Dynamic field access `post[f]`. -/
def getField (p : Post) : PostField → FVal
  | .id => .vOidOpt p.id
  | .country => .vStr p.country
  | .link => .vStr p.link
  | .short_link => .vStr p.short_link
  | .link_hash => .vStr p.link_hash
  | .type => .vStr p.type
  | .title => .vStr p.title
  | .text => .vStr p.text
  | .excerpt => .vStr p.excerpt
  | .publish_time => .vStr p.publish_time
  | .modified_time => .vStr p.modified_time
  | .top_image => .vStr p.top_image
  | .images => .vStrs p.images
  | .videos => .vStrs p.videos
  | .authors => .vStrs p.authors
  | .keywords => .vStrs p.keywords
  | .tags => .vStrs p.tags
  | .paper => .vStr p.paper
  | .version => match p.version with
      | .vint n => .vInt n
      | .vhash s => .vStr s
  | .is_draft => .vBool p.is_draft
  | .is_scrap => .vBool p.is_scrap
  | .category => .vStr p.category
  | .caption => .vStr p.caption
  | .summary => .vStr p.summary
  | .siblings => .vRefs p.siblings
  | .related => .vRefs p.related

/-- Every field of the post item, `list(self.post.fields)`. -/
def all_fields : List PostField :=
  [.id, .country, .link, .short_link, .link_hash, .type, .title, .text,
   .excerpt, .publish_time, .modified_time, .top_image, .images, .videos,
   .authors, .keywords, .tags, .paper, .version, .is_draft, .is_scrap,
   .category, .caption, .summary, .siblings, .related]

/-- Jaccard similarity of two keyword collections
(`newsutils.pipelines.similarity`).  The assertion
`assert src and other` makes the call raise `AssertionError` when either
iterable is empty; a raise is modelled as `none`. -/
def similarity (src other : List String) : Option ℚ :=
  if src.isEmpty || other.isEmpty then none
  else
    let kw1 := src.toFinset
    let kw2 := other.toFinset
    some (((kw1 ∩ kw2).card : ℚ) / ((kw1 ∪ kw2).card : ℚ))

/-- The inner `has_changed(val, db_val)` closure of
`newsutils.pipelines.have_changed`, for field `f`.  List-valued fields are
compared by set equality when no threshold is configured, else by the Jaccard
similarity of the two posts' keyword sets (regardless of which list field is
being checked, as in the source).  Calling `set()` on a list of dicts
(relationship tiers) raises `TypeError`; a raise is modelled as `none`. -/
def has_changed (src other : Post) (threshold : ℚ) (f : PostField) : Option Bool :=
  match getField src f, getField other f with
  | .vStrs l, .vStrs m =>
      if threshold = 0 then some (decide (l.toFinset ≠ m.toFinset))
      else (similarity src.keywords other.keywords).map (fun s => decide (s < threshold))
  | .vRefs _, .vRefs _ =>
      if threshold = 0 then none
      else (similarity src.keywords other.keywords).map (fun s => decide (s < threshold))
  | v, w => some (decide (v ≠ w))

/-- Whether the pipeline item differs from its database version
(`newsutils.pipelines.have_changed`).  The Python list comprehension
evaluates `has_changed` on every checked field before `any`, so a raise in
any field propagates (hence `mapM`). -/
def have_changed (src other : Post) (fields : List PostField)
    (excluded : List PostField := []) (threshold : ℚ := 0) : Option Bool :=
  ((fields.filter (fun f => f ∉ excluded)).mapM (has_changed src other threshold)).map
    (fun l => l.any id)

/-- The pair of change predicates returned by `CheckEdits.check_edits`. -/
structure EditStatus where
  pristine : Bool
  new_version : Bool
deriving DecidableEq, Repr

/-- The versioning settings consumed by `CheckEdits`
(`POSTS.EDITS_*` in `newsutils/conf/settings.py`). -/
structure EditsConfig where
  edits_excluded_fields : List PostField
  edits_new_version_fields : List PostField
  edits_pristine_threshold : ℚ
  edits_new_version_threshold : ℚ

/-- `CheckEdits.check_edits`: detect post changes against the stored post.
The store lookup `self.day.find_one(...)` is an external call; its result is
passed in as `existing_post`.  The default status (no stored post) is
`pristine=True, new_version=False`.  `none` = a raise inside `have_changed`
propagates. -/
def check_edits (cfg : EditsConfig) (post : Post) (existing_post : Option Post) :
    Option (Option Post × EditStatus) :=
  match existing_post with
  | none => some (none, ⟨true, false⟩)
  | some ex => do
      let hc1 ← have_changed post ex all_fields cfg.edits_excluded_fields
        cfg.edits_pristine_threshold
      let hc2 ← have_changed post ex cfg.edits_new_version_fields []
        cfg.edits_new_version_threshold
      some (some ex, ⟨!hc1, hc2⟩)

/-- `int(existing_post[version_field])`: converting a stored version value to
an int.  The conversion of a (non-numeric) hash digest raises `ValueError`. -/
def VersionVal.toInt : VersionVal → Option Int
  | .vint n => some n
  | .vhash _ => none

/-- `CheckEdits.process_post`: the edit resolver's verdict for one incoming
document.  Returns the updated seen-set together with `none` when the item is
dropped (`DropItem`, duplicate) or `some p` when item `p` is sent down the
pipeline.  The outer `Option` models an uncaught raise. -/
def process_post (cfg : EditsConfig) (ids_seen : Finset String)
    (existing_post : Option Post) (post : Post) :
    Option (Finset String × Option Post) :=
  if post.short_link ∉ ids_seen then
    some (insert post.short_link ids_seen, some post)
  else
    (check_edits cfg post existing_post).bind (fun r =>
      let status := r.2
      if status.pristine then
        -- identical post matched in database: drop duplicate post
        some (ids_seen, none)
      else
        match r.1 with
        | none => none  -- accessing fields of the absent stored post raises
        | some ex =>
          if status.new_version then
            (ex.version.toInt).map (fun n =>
              (ids_seen, some { post with version := .vint (n + 1) }))
          else
            some (ids_seen, some { post with id := ex.id }))

/-- `CheckEdits.ids_seen` initialization for a day: the set of natural keys
(`item_id_field`, i.e. `short_link`) of every document stored for that day
(`self.day.find(projection=...)` streams every stored row). -/
def ids_seen_init (stored : List Post) : Finset String :=
  (stored.map Post.short_link).toFinset

/-- The `pristine` predicate computed by `check_edits` (line 200):
no field outside the exclusion set differs.  It is the negation of
`have_changed` over all item fields. -/
def pristine_pred (cfg : EditsConfig) (post ex : Post) : Option Bool :=
  (have_changed post ex all_fields cfg.edits_excluded_fields
    cfg.edits_pristine_threshold).map (fun b => !b)

/-- The `new_version` predicate computed by `check_edits` (line 202):
some version-triggering field differs. -/
def new_version_pred (cfg : EditsConfig) (post ex : Post) : Option Bool :=
  have_changed post ex cfg.edits_new_version_fields []
    cfg.edits_new_version_threshold

/-- A post with the `defaultpost` default values applied by `mk_post`
(`newsutils/conf/post_item.py`): version 1, empty strings, empty lists,
false booleans, no store id (Python `None` string fields modelled as `""`). -/
def mk_post_defaults : Post := {}

/-- `FilterCrap.process_post`: drop the post when the Jaccard similarity of
its keywords against the banned-keyword list reaches the configured
threshold.  Outer `none` = the `similarity` assertion raised; inner `none` =
`DropItem`. -/
def filter_crap_process (crap_banned_keywords : List String)
    (crap_similarity_threshold : ℚ) (post : Post) : Option (Option Post) :=
  (similarity post.keywords crap_banned_keywords).map (fun threshold =>
    if crap_similarity_threshold ≤ threshold then none else some post)

example : similarity [] ["b"] = none := by rfl

lemma check_edits_eq (cfg : EditsConfig) (post ex : Post) (pr nv : Bool)
    (hpr : pristine_pred cfg post ex = some pr)
    (hnv : new_version_pred cfg post ex = some nv) :
    check_edits cfg post (some ex) = some (some ex, ⟨pr, nv⟩) := by
  unfold pristine_pred at hpr
  unfold new_version_pred at hnv
  rcases Option.map_eq_some'.mp hpr with ⟨b, hb, hbpr⟩
  simp only [check_edits, hb, hnv, Option.bind_eq_bind, Option.some_bind]
  simp [← hbpr]

/-- C1: for an incoming document whose natural key is already in the day's
seen-set, the edit resolver's verdict follows the precedence
pristine → DUPLICATE (dropped, never persisted); else new_version →
persisted with version = existing.version + 1 and no store id (insert);
else the document inherits the existing store id (update-in-place).  A
document whose key is unseen passes through unchanged and its key is
registered as seen.  (The new-version branch leaves the incoming item's id
untouched; a pipeline item has no store id before `SaveToDb`, hence the
`post.id = none` hypothesis.) -/
theorem edit_resolver_verdict_precedence (cfg : EditsConfig)
    (ids_seen : Finset String) (post ex : Post) (pr nv : Bool) (n : Int)
    (hpr : pristine_pred cfg post ex = some pr)
    (hnv : new_version_pred cfg post ex = some nv)
    (hver : ex.version = .vint n) (hid : post.id = none) :
    (post.short_link ∉ ids_seen →
      process_post cfg ids_seen (some ex) post =
        some (insert post.short_link ids_seen, some post)) ∧
    (post.short_link ∈ ids_seen →
      process_post cfg ids_seen (some ex) post =
        some (ids_seen,
          if pr then none
          else if nv then some { post with version := .vint (n + 1) }
          else some { post with id := ex.id })) ∧
    ({ post with version := VersionVal.vint (n + 1) } : Post).id = none ∧
    ({ post with id := ex.id } : Post).id = ex.id := by
  refine ⟨fun hout => ?_, fun hin => ?_, hid, rfl⟩
  · simp [process_post, hout]
  · have hce := check_edits_eq cfg post ex pr nv hpr hnv
    cases pr <;> cases nv <;>
      simp [process_post, hin, hce, hver, VersionVal.toInt]

/-- Concrete configuration used by the closed witnesses: the default
`EDITS_EXCLUDED_FIELDS` / `EDITS_NEW_VERSION_FIELDS` of
`newsutils/conf/settings.py`, with no similarity thresholds configured. -/
def cfgW : EditsConfig :=
  { edits_excluded_fields :=
      [.version, .id, .short_link, .category, .caption, .summary,
       .siblings, .related, .tags, .keywords, .excerpt]
    edits_new_version_fields := [.text, .title]
    edits_pristine_threshold := 0
    edits_new_version_threshold := 0 }

/-- A stored post used by the closed witnesses. -/
def exW : Post :=
  { mk_post_defaults with
      id := some ⟨7, "aaa111"⟩, short_link := "/p/1", title := "T",
      text := "body", version := .vint 3 }

theorem edit_resolver_verdict_precedence_witness :
    process_post cfgW ({"/p/1"} : Finset String) (some exW)
      { exW with id := none } = some (({"/p/1"} : Finset String), none) := by
  have h := edit_resolver_verdict_precedence cfgW ({"/p/1"} : Finset String)
    { exW with id := none } exW true false 3
    (by decide) (by decide) (by decide) (by decide)
  simpa using h.2.1 (by decide)

/-- C10: the edit resolver's seen-set for a day is initialized from the
persistent store, not empty: it contains exactly the natural keys of the
documents stored for that day, so a document whose key was persisted by an
earlier run takes the SEEN branch even on its first appearance in the
current run (here instantiated with a pristine stored match: the document is
dropped as a duplicate and the seen-set is not re-registered). -/
theorem ids_seen_initialized_from_store (stored : List Post)
    (cfg : EditsConfig) (post ex : Post) (nv : Bool)
    (hin : ∃ q ∈ stored, q.short_link = post.short_link)
    (hpr : pristine_pred cfg post ex = some true)
    (hnv : new_version_pred cfg post ex = some nv) :
    (∀ key, key ∈ ids_seen_init stored ↔ ∃ q ∈ stored, q.short_link = key) ∧
    process_post cfg (ids_seen_init stored) (some ex) post =
      some (ids_seen_init stored, none) := by
  have hmem : ∀ key, key ∈ ids_seen_init stored ↔ ∃ q ∈ stored, q.short_link = key := by
    intro key
    simp [ids_seen_init]
  refine ⟨hmem, ?_⟩
  have hseen : post.short_link ∈ ids_seen_init stored := (hmem _).mpr hin
  have hce := check_edits_eq cfg post ex true nv hpr hnv
  simp [process_post, hseen, hce]

theorem ids_seen_initialized_from_store_witness :
    process_post cfgW (ids_seen_init [exW]) (some exW)
      { exW with id := none } = some (ids_seen_init [exW], none) := by
  have h := ids_seen_initialized_from_store [exW] cfgW
    { exW with id := none } exW false
    ⟨exW, by decide, by decide⟩ (by decide) (by decide)
  exact h.2

/-- C7 counterexample: the callers of `similarity` do not guarantee
non-empty argument sets.  A valid pipeline item with an empty keyword list
reaches `FilterCrap.process_post`, and reaches `have_changed`'s loose
(threshold) comparison, and in both cases the `similarity` assertion fires
(modelled as `none`), contradicting the claim that the assertion cannot
fail. -/
theorem similarity_callers_unguarded_counterexample :
    filter_crap_process ["spam"] 2
      { mk_post_defaults with
          short_link := "/p/2", title := "T", text := "b",
          publish_time := "2023-01-01" } = none ∧
    have_changed { mk_post_defaults with images := ["i"] }
      { mk_post_defaults with images := ["j"] } [.images] [] 1 = none := by
  constructor <;> rfl

/-- C7 amended: `similarity` itself asserts that both compared sets are
non-empty and raises otherwise; its callers pass keyword sets through
unguarded.  Consequently a call raises exactly when one of the sets is
empty, and succeeds (dividing by a non-zero union size) exactly when both
are non-empty. -/
theorem similarity_empty_guard (banned : List String) (th : ℚ) (post : Post) :
    ((similarity post.keywords banned).isSome ↔
      post.keywords ≠ [] ∧ banned ≠ []) ∧
    (post.keywords = [] ∨ banned = [] → filter_crap_process banned th post = none) ∧
    (post.keywords ≠ [] → banned ≠ [] → (filter_crap_process banned th post).isSome) := by
  have hsim : (similarity post.keywords banned).isSome ↔
      post.keywords ≠ [] ∧ banned ≠ [] := by
    simp only [similarity]
    rcases hk : post.keywords with _ | ⟨a, l⟩ <;>
      rcases hb : banned with _ | ⟨b, m⟩ <;> simp
  refine ⟨hsim, fun h => ?_, fun h1 h2 => ?_⟩
  · simp only [filter_crap_process, Option.map_eq_none', similarity]
    rcases h with h | h <;> simp [h]
  · simpa [filter_crap_process] using hsim.mpr ⟨h1, h2⟩

theorem similarity_empty_guard_witness :
    (filter_crap_process ["x"] 2
      { mk_post_defaults with keywords := ["x"] }).isSome := by
  exact (similarity_empty_guard ["x"] 2
    { mk_post_defaults with keywords := ["x"] }).2.2 (by decide) (by decide)

/-- The generation timestamp of a post's ObjectId,
`p[self.db_id_field].generation_time`.  Callers of `mk_metapost_version`
only ever pass db-loaded sibling posts, which carry a store id; an absent id
is mapped to timestamp 0. -/
def post_gen (p : Post) : Nat :=
  match p.id with
  | some o => o.genTime
  | none => 0

/-- String form of a post's store id, `str(p[self.db_id_field])`. -/
def post_oid_str (p : Post) : String :=
  (p.id.map Oid.idStr).getD ""

/-- The sort key relation of `mk_metapost_version`:
`sorted(posts, key=lambda p: p[self.db_id_field].generation_time)`. -/
def genLe (a b : Post) : Prop := post_gen a ≤ post_gen b

instance : DecidableRel genLe := fun a b =>
  inferInstanceAs (Decidable (post_gen a ≤ post_gen b))

instance : IsTotal Post genLe := ⟨fun a b => Nat.le_total (post_gen a) (post_gen b)⟩

instance : IsTrans Post genLe := ⟨fun _ _ _ => Nat.le_trans⟩

/-- `DayNlp.mk_metapost_version`: the predictable version hash of a
metapost, generated from the sibling posts' ObjectIds sorted by generation
time.  Python's `sorted` is a stable sort, matched here by insertion sort.
The source feeds the joined id string to `hashlib.md5(...).hexdigest()`;
md5 being a fixed deterministic function of its input, the hash is modelled
by its (collision-free) input string. -/
def mk_metapost_version (posts : List Post) : String :=
  String.join ((posts.insertionSort genLe).map post_oid_str)

/-- Two sibling posts whose ObjectIds were generated within the same second
(equal `generation_time`, distinct ids). -/
def sibSameSecA : Post := { mk_post_defaults with id := some ⟨5, "aaa"⟩ }

/-- Second sibling of the tied-generation-time pair. -/
def sibSameSecB : Post := { mk_post_defaults with id := some ⟨5, "bbb"⟩ }

/-- C4 counterexample: `mk_metapost_version` is not a function of the
multiset of sibling identifiers alone.  The sort key (ObjectId generation
time, seconds resolution) is not injective: for two siblings created within
the same second the stable sort preserves input order, so the same
identifiers in a different order yield a different hash input (hence a
different md5 digest). -/
theorem mk_metapost_version_order_dependent_counterexample :
    ([sibSameSecA, sibSameSecB] : List Post).Perm [sibSameSecB, sibSameSecA] ∧
    mk_metapost_version [sibSameSecA, sibSameSecB] ≠
      mk_metapost_version [sibSameSecB, sibSameSecA] := by
  constructor
  · exact List.Perm.swap _ _ _
  · decide

lemma eq_of_perm_of_sorted_of_nodup_keys : ∀ {s1 s2 : List Post},
    s1.Perm s2 → s1.Sorted genLe → s2.Sorted genLe →
    (s1.map post_gen).Nodup → s1 = s2 := by
  intro s1
  induction s1 with
  | nil => intro s2 hperm _ _ _; exact (hperm.nil_eq).symm ▸ rfl
  | cons a t1 ih =>
    intro s2 hperm hs1 hs2 hnd
    cases s2 with
    | nil => exact absurd hperm.symm.nil_eq (by simp)
    | cons b t2 =>
      have ha : a ∈ b :: t2 := hperm.subset (List.mem_cons_self a t1)
      have hb : b ∈ a :: t1 := hperm.symm.subset (List.mem_cons_self b t2)
      have hab : a = b := by
        rcases List.mem_cons.mp ha with h | h
        · exact h
        · rcases List.mem_cons.mp hb with h2 | h2
          · exact h2.symm
          · -- a and b each bound the other's list: equal generation times
            have h1 : post_gen a ≤ post_gen b :=
              (List.sorted_cons.mp hs1).1 b h2
            have h2' : post_gen b ≤ post_gen a :=
              (List.sorted_cons.mp hs2).1 a h
            have hg : post_gen a = post_gen b := Nat.le_antisymm h1 h2'
            exfalso
            have : post_gen b ∈ t1.map post_gen := List.mem_map_of_mem _ h2
            have hnotin : post_gen a ∉ t1.map post_gen :=
              (List.nodup_cons.mp (by simpa using hnd)).1
            exact hnotin (hg ▸ this)
      subst hab
      have ht : t1.Perm t2 := hperm.cons_inv
      have : t1 = t2 := ih ht (List.sorted_cons.mp hs1).2
        (List.sorted_cons.mp hs2).2 (List.nodup_cons.mp (by simpa using hnd)).2
      rw [this]

/-- C4 amended: the synthetic document's version is a function of the
multiset of its source siblings provided their ObjectId generation
timestamps are pairwise distinct (so the sort key determines the order
uniquely); with tied timestamps the result may depend on input order. -/
theorem mk_metapost_version_perm (l1 l2 : List Post) (hperm : l1.Perm l2)
    (hnodup : (l1.map post_gen).Nodup) :
    mk_metapost_version l1 = mk_metapost_version l2 := by
  have hp : (l1.insertionSort genLe).Perm (l2.insertionSort genLe) :=
    ((l1.perm_insertionSort genLe).trans hperm).trans
      (l2.perm_insertionSort genLe).symm
  have hnd : ((l1.insertionSort genLe).map post_gen).Nodup := by
    have : ((l1.insertionSort genLe).map post_gen).Perm (l1.map post_gen) :=
      (l1.perm_insertionSort genLe).map post_gen
    exact this.nodup_iff.mpr hnodup
  have := eq_of_perm_of_sorted_of_nodup_keys hp
    (List.sorted_insertionSort genLe l1) (List.sorted_insertionSort genLe l2) hnd
  unfold mk_metapost_version
  rw [this]

theorem mk_metapost_version_perm_witness :
    mk_metapost_version [sibSameSecA, { mk_post_defaults with id := some ⟨9, "ccc"⟩ }] =
      mk_metapost_version [{ mk_post_defaults with id := some ⟨9, "ccc"⟩ }, sibSameSecA] := by
  exact mk_metapost_version_perm _ _ (List.Perm.swap _ _ _) (by decide)

/-- Sentinel category (`newsutils.nlp.CATEGORY_NOT_FOUND`). -/
def CATEGORY_NOT_FOUND : String := "N/A"

/-- `DayNlp.summarize`: abstractive summarization of a post text.  The three
capabilities are external models; their outputs for the given text are the
parameters: `text_sum` from the text summarizer, `title_sum` from the title
summarizer (each a value/score pair) and `categories` the categorizer's
ranked labels (may be empty).  The source zips the three pairs into
`((summary, caption, category), (scores...))`; the category defaults to
`CATEGORY_NOT_FOUND` (score 0) when the ranking is empty. -/
def summarize (text_sum title_sum : String × ℚ)
    (categories : List (String × ℚ)) : (String × String × String) × (ℚ × ℚ × ℚ) :=
  let category_n_score :=
    match categories with
    | [] => (CATEGORY_NOT_FOUND, (0 : ℚ))
    | c :: _ => c
  ((text_sum.1, title_sum.1, category_n_score.1),
   (text_sum.2, title_sum.2, category_n_score.2))

/-- `DayNlp.set_summary`: update the post with the summarization results
(summary, caption, category and their scores). -/
def set_summary (post : Post) (text_sum title_sum : String × ℚ)
    (categories : List (String × ℚ)) : Post :=
  let r := summarize text_sum title_sum categories
  { post with
      category := r.1.2.2, caption := r.1.2.1, summary := r.1.1,
      sum_score_summary := r.2.1, sum_score_caption := r.2.2.1,
      sum_score_category := r.2.2.2 }

/-- C8: when the categorization capability returns an empty ranking, the
category written to the document is the sentinel `CATEGORY_NOT_FOUND`;
when the ranking is non-empty, the category is the first (highest-ranked)
label. -/
theorem set_summary_category_sentinel (post : Post)
    (text_sum title_sum : String × ℚ) (categories : List (String × ℚ)) :
    (categories = [] →
      (set_summary post text_sum title_sum categories).category = CATEGORY_NOT_FOUND) ∧
    (∀ c rest, categories = c :: rest →
      (set_summary post text_sum title_sum categories).category = c.1) := by
  constructor
  · intro h; subst h; rfl
  · intro c rest h; subst h; rfl

theorem set_summary_category_sentinel_witness :
    (set_summary mk_post_defaults ("long summary", 0) ("short caption", 0)
      []).category = CATEGORY_NOT_FOUND := by
  exact (set_summary_category_sentinel mk_post_defaults
    ("long summary", 0) ("short caption", 0) []).1 rfl

/-- Membership-faithful model of `list(set(a).union(b))` (Python set
iteration order is unspecified; only membership matters downstream). -/
def list_union (a b : List String) : List String := (a ++ b).dedup

/-- `newsutils.helpers.uniquedicts` on two author lists: flattens both and
de-duplicates identical records (set-of-frozen-dicts semantics, modelled
membership-faithfully over the opaque author carrier). -/
def uniquedicts (a b : List String) : List String := (a ++ b).dedup

/-- One iteration of the sibling compilation loop of `DayNlp.mk_metapost`
(lines 409-416): booleans combine by `&=`, string lists by set union,
author dict lists by `uniquedicts`. -/
def sib_merge_step (m p : Post) : Post :=
  { m with
      is_draft := m.is_draft && p.is_draft,
      is_scrap := m.is_scrap && p.is_scrap,
      images := list_union m.images p.images,
      videos := list_union m.videos p.videos,
      keywords := list_union m.keywords p.keywords,
      tags := list_union m.tags p.tags,
      authors := uniquedicts m.authors p.authors }

/-- The whole `for post in siblings:` compilation loop of `mk_metapost`. -/
def compile_from_siblings (metapost : Post) (siblings : List Post) : Post :=
  siblings.foldl sib_merge_step metapost

/-- Fixed bot author record (`newsutils.crawl.items.BOT`), opaque carrier. -/
def BOT : String := "Rob. O."

/-- Fixed synthetic paper record (`newsutils.crawl.items.THIS_PAPER`). -/
def THIS_PAPER : String := "ARISEnews"

/-- `DayNlp.mk_metapost`: generate a metapost from the given post's
resolved siblings.  External inputs are parameters: `now`/`pub` the
timestamps stamped at synthesis time, the summarizer/categorizer outputs
(cf. `set_summary`), and `texts` the concatenated punctuated cluster text
(text extraction is the `get_post_text` strategy over the cluster).
Returns the metapost together with the lookup version, or `none` when no
siblings resolve or the cluster text is empty.  Sibling posts are db-loaded
and carry store ids. -/
def mk_metapost (start_time : Nat) (now pub : String)
    (text_sum title_sum : String × ℚ) (categories : List (String × ℚ))
    (src : Post) (siblings : List Post) (texts : String) :
    Option (Post × String) :=
  if siblings.isEmpty || texts.isEmpty then none
  else
    -- metapost = mk_post({self.sum_score_field: {}})
    let metapost0 := mk_post_defaults
    -- lookup_version: hash of the siblings that predate this run
    let old_siblings := siblings.filter (fun p => post_gen p ≤ start_time)
    let lookup_version := mk_metapost_version old_siblings
    -- current version: hash over all currently resolved siblings
    let m1 := { metapost0 with version := .vhash (mk_metapost_version siblings) }
    -- summarization inference
    let m2 := set_summary m1 text_sum title_sum categories
    -- siblings & related from src post; immutable fields
    let m3 := { m2 with
        siblings := src.siblings, related := src.related,
        type := "metapost." ++ src.type,
        country := src.country,
        publish_time := pub, modified_time := now,
        top_image := ((siblings.head?).map Post.top_image).getD "",
        paper := THIS_PAPER,
        authors := [BOT] }
    -- compile misc. data from siblings into metapost
    some (compile_from_siblings m3 siblings, lookup_version)

lemma compile_proj_bool (f : Post → Bool)
    (hf : ∀ m p, f (sib_merge_step m p) = (f m && f p)) :
    ∀ (sibs : List Post) (m0 : Post), f m0 = false →
      f (compile_from_siblings m0 sibs) = false := by
  intro sibs
  induction sibs with
  | nil => intro m0 h; exact h
  | cons p t ih =>
      intro m0 h
      show f (compile_from_siblings (sib_merge_step m0 p) t) = false
      exact ih _ (by rw [hf, h, Bool.false_and])

lemma compile_proj_union (f : Post → List String)
    (hf : ∀ m p, f (sib_merge_step m p) = list_union (f m) (f p)) :
    ∀ (sibs : List Post) (m0 : Post) (x : String),
      x ∈ f (compile_from_siblings m0 sibs) ↔
        x ∈ f m0 ∨ ∃ p ∈ sibs, x ∈ f p := by
  intro sibs
  induction sibs with
  | nil => intro m0 x; simp [compile_from_siblings]
  | cons p t ih =>
      intro m0 x
      have : compile_from_siblings m0 (p :: t) =
          compile_from_siblings (sib_merge_step m0 p) t := rfl
      rw [this, ih]
      simp [hf, list_union, or_assoc]

/-- The source post used in the merge-law counterexample. -/
def srcC5 : Post :=
  { mk_post_defaults with
      id := some ⟨1, "s1"⟩, type := "default", short_link := "/p/src",
      is_draft := true, is_scrap := true,
      images := ["src-img"], videos := ["src-vid"],
      keywords := ["src-kw"], tags := ["src-tag"] }

/-- The single resolved sibling used in the merge-law counterexample. -/
def sibC5 : Post :=
  { mk_post_defaults with
      id := some ⟨2, "s2"⟩, type := "default", short_link := "/p/sib",
      is_draft := true, is_scrap := true,
      images := ["sib-img"], videos := ["sib-vid"],
      keywords := ["sib-kw"], tags := ["sib-tag"] }

/-- C5 counterexample: the compilation loop iterates over the siblings only
(the source post is not a loop member) and starts from the `mk_post`
defaults (booleans `False`, lists empty).  With every cluster member (source
and sibling) having `is_draft = is_scrap = True`, the claim's AND over all
cluster members is `True`, yet the metapost's flags are `False`; and the
source's image is in the claim's union over all cluster members, yet absent
from the metapost. -/
theorem mk_metapost_merge_counterexample :
    ((mk_metapost 10 "now" "pub" ("sum", 0) ("cap", 0) [] srcC5 [sibC5]
        "some text.").map (fun r =>
          (r.1.is_draft, r.1.is_scrap, decide ("src-img" ∈ r.1.images)))) =
      some (false, false, false) ∧
    (srcC5.is_draft && sibC5.is_draft) = true ∧
    "src-img" ∈ srcC5.images ++ sibC5.images := by
  refine ⟨by decide, by decide, by decide⟩

/-- C5 amended: on every synthesized metapost, each boolean lifecycle flag
is the AND of the `mk_post` default (`False`) with the flags of the resolved
siblings only — hence always `False` — and each list-valued field (images,
videos, keywords, tags) is the set union of that field over the resolved
siblings only; the source post itself is not merged. -/
theorem mk_metapost_merge_semantics (start_time : Nat) (now pub : String)
    (text_sum title_sum : String × ℚ) (categories : List (String × ℚ))
    (src : Post) (siblings : List Post) (texts : String) (m : Post) (lv : String)
    (h : mk_metapost start_time now pub text_sum title_sum categories
          src siblings texts = some (m, lv)) :
    m.is_draft = false ∧ m.is_scrap = false ∧
    (∀ x, x ∈ m.images ↔ ∃ p ∈ siblings, x ∈ p.images) ∧
    (∀ x, x ∈ m.videos ↔ ∃ p ∈ siblings, x ∈ p.videos) ∧
    (∀ x, x ∈ m.keywords ↔ ∃ p ∈ siblings, x ∈ p.keywords) ∧
    (∀ x, x ∈ m.tags ↔ ∃ p ∈ siblings, x ∈ p.tags) := by
  unfold mk_metapost at h
  split at h
  · exact absurd h (by simp)
  · simp only [Option.some.injEq, Prod.mk.injEq] at h
    obtain ⟨hm, _⟩ := h
    subst hm
    refine ⟨?_, ?_, ?_, ?_, ?_, ?_⟩
    · exact compile_proj_bool Post.is_draft (fun m p => rfl) siblings _ rfl
    · exact compile_proj_bool Post.is_scrap (fun m p => rfl) siblings _ rfl
    · intro x
      rw [compile_proj_union Post.images (fun m p => rfl) siblings _ x]
      simp [set_summary, mk_post_defaults]
    · intro x
      rw [compile_proj_union Post.videos (fun m p => rfl) siblings _ x]
      simp [set_summary, mk_post_defaults]
    · intro x
      rw [compile_proj_union Post.keywords (fun m p => rfl) siblings _ x]
      simp [set_summary, mk_post_defaults]
    · intro x
      rw [compile_proj_union Post.tags (fun m p => rfl) siblings _ x]
      simp [set_summary, mk_post_defaults]

theorem mk_metapost_merge_semantics_witness :
    ((mk_metapost 10 "now" "pub" ("sum", 0) ("cap", 0) [] srcC5 [sibC5]
        "some text.").map (fun r => r.1.is_draft)) = some false := by
  cases hh : mk_metapost 10 "now" "pub" ("sum", 0) ("cap", 0) [] srcC5 [sibC5]
      "some text." with
  | none =>
      have hs : (mk_metapost 10 "now" "pub" ("sum", 0) ("cap", 0) [] srcC5
        [sibC5] "some text.").isSome = true := rfl
      rw [hh] at hs
      simp at hs
  | some r =>
      obtain ⟨m, lv⟩ := r
      have h := mk_metapost_merge_semantics 10 "now" "pub" ("sum", 0) ("cap", 0)
        [] srcC5 [sibC5] "some text." m lv hh
      simp [h.1]

lemma compile_proj_const {α : Type} (f : Post → α)
    (hf : ∀ m p, f (sib_merge_step m p) = f m) :
    ∀ (sibs : List Post) (m0 : Post), f (compile_from_siblings m0 sibs) = f m0 := by
  intro sibs
  induction sibs with
  | nil => intro m0; rfl
  | cons p t ih =>
      intro m0
      show f (compile_from_siblings (sib_merge_step m0 p) t) = f m0
      rw [ih, hf]

/-- The store adapter's `update_or_create` for the metapost save path
(`Day.save(metapost, only=(TYPE,), id_field_or_match={'version': lookup})`,
i.e. a MongoDB `update_one({type, version}, $set fields, upsert=True)`):
the first stored document matching the `{type, version}` pair is overwritten
with the new fields (keeping its immutable store id); when none matches, the
document is inserted with a fresh store id.  The `set_metapost_link`
transform only stamps link fields from the assigned id and is immaterial
here.  `daily_query`/`pymongo` are external collaborators; this is their
contract. -/
def upsert_by_type_version (store : List Post) (fields : Post)
    (mtype : String) (mver : VersionVal) (fresh : Oid) : List Post :=
  match store with
  | [] => [{ fields with id := some fresh }]
  | d :: rest =>
      if d.type = mtype ∧ d.version = mver then
        { fields with id := d.id } :: rest
      else d :: upsert_by_type_version rest fields mtype mver fresh

/-- `DayNlp.save_metapost`: generate the metapost for `src` and persist it,
matched by `{type, version = lookup_version}`.  When `mk_metapost` yields
nothing (or raises), the store is untouched. -/
def save_metapost (store : List Post) (start_time : Nat) (now pub : String)
    (text_sum title_sum : String × ℚ) (categories : List (String × ℚ))
    (src : Post) (siblings : List Post) (texts : String) (fresh : Oid) :
    List Post :=
  match mk_metapost start_time now pub text_sum title_sum categories
      src siblings texts with
  | none => store
  | some (metapost, lookup_version) =>
      upsert_by_type_version store metapost metapost.type
        (.vhash lookup_version) fresh

lemma upsert_no_match (fields : Post) (mtype : String) (mver : VersionVal)
    (fresh : Oid) : ∀ store : List Post,
    (∀ d ∈ store, ¬(d.type = mtype ∧ d.version = mver)) →
    upsert_by_type_version store fields mtype mver fresh =
      store ++ [{ fields with id := some fresh }] := by
  intro store
  induction store with
  | nil => intro _; rfl
  | cons d rest ih =>
      intro h
      rw [upsert_by_type_version, if_neg (h d (List.mem_cons_self d rest))]
      rw [ih (fun x hx => h x (List.mem_cons_of_mem d hx))]
      rfl

lemma upsert_match_at_end (fields : Post) (mtype : String) (mver : VersionVal)
    (fresh : Oid) (d0 : Post) (hd0 : d0.type = mtype ∧ d0.version = mver) :
    ∀ store : List Post,
    (∀ d ∈ store, ¬(d.type = mtype ∧ d.version = mver)) →
    upsert_by_type_version (store ++ [d0]) fields mtype mver fresh =
      store ++ [{ fields with id := d0.id }] := by
  intro store
  induction store with
  | nil => intro _; simp [upsert_by_type_version, hd0]
  | cons d rest ih =>
      intro h
      rw [List.cons_append, upsert_by_type_version,
        if_neg (h d (List.mem_cons_self d rest))]
      rw [ih (fun x hx => h x (List.mem_cons_of_mem d hx))]
      rfl

lemma mk_metapost_spec (start_time : Nat) (now pub : String)
    (text_sum title_sum : String × ℚ) (categories : List (String × ℚ))
    (src : Post) (siblings : List Post) (texts : String)
    (hsib : siblings ≠ []) (htexts : texts ≠ "") :
    ∃ m : Post, mk_metapost start_time now pub text_sum title_sum categories
        src siblings texts =
      some (m, mk_metapost_version
        (siblings.filter (fun p => decide (post_gen p ≤ start_time)))) ∧
      m.type = "metapost." ++ src.type ∧
      m.version = .vhash (mk_metapost_version siblings) := by
  have ht : texts.isEmpty = false := by
    rw [Bool.eq_false_iff]
    simpa [String.isEmpty_iff] using htexts
  have hcond : (siblings.isEmpty || texts.isEmpty) = false := by
    rcases siblings with _ | ⟨p, t⟩
    · exact absurd rfl hsib
    · simp [ht]
  unfold mk_metapost
  rw [hcond]
  simp only [Bool.false_eq_true, if_false]
  refine ⟨_, rfl, ?_, ?_⟩
  · rw [compile_proj_const Post.type (fun m p => rfl)]
  · rw [compile_proj_const Post.version (fun m p => rfl)]
    rfl

/-- C2: running metapost synthesis twice on an unchanged sibling cluster
stores a single synthetic document.  The second run's lookup version (hash
of the siblings predating it) equals the version stamped by the first run,
and since the synthetic document is persisted with an upsert matched by
`\x7btype, version = lookup_version\x7d`, the second run overwrites the
first run's document in place. -/
theorem metapost_synthesis_idempotent (store : List Post) (t1 t2 : Nat)
    (now1 now2 pub1 pub2 : String) (text_sum title_sum : String × ℚ)
    (categories : List (String × ℚ)) (src : Post) (siblings : List Post)
    (texts : String) (f1 f2 : Oid)
    (hsib : siblings ≠ []) (htexts : texts ≠ "")
    (hold : ∀ p ∈ siblings, post_gen p ≤ t2)
    (hstore : ∀ d ∈ store, d.type ≠ "metapost." ++ src.type) :
    mk_metapost_version (siblings.filter (fun p => decide (post_gen p ≤ t2))) =
      mk_metapost_version siblings ∧
    ((save_metapost
        (save_metapost store t1 now1 pub1 text_sum title_sum categories
          src siblings texts f1)
        t2 now2 pub2 text_sum title_sum categories src siblings texts f2).filter
      (fun d => decide (d.type = "metapost." ++ src.type))).length = 1 := by
  have hfilter : siblings.filter (fun p => decide (post_gen p ≤ t2)) = siblings :=
    List.filter_eq_self.mpr (fun p hp => decide_eq_true (hold p hp))
  refine ⟨by rw [hfilter], ?_⟩
  obtain ⟨m1, hm1, hm1t, hm1v⟩ := mk_metapost_spec t1 now1 pub1 text_sum
    title_sum categories src siblings texts hsib htexts
  obtain ⟨m2, hm2, hm2t, hm2v⟩ := mk_metapost_spec t2 now2 pub2 text_sum
    title_sum categories src siblings texts hsib htexts
  rw [hfilter] at hm2
  -- first run: no stored document matches, insert
  have hs1 : save_metapost store t1 now1 pub1 text_sum title_sum categories
      src siblings texts f1 = store ++ [{ m1 with id := some f1 }] := by
    rw [save_metapost, hm1]
    exact upsert_no_match m1 m1.type _ f1 store
      (fun d hd hc => hstore d hd (hm1t ▸ hc.1))
  -- second run: the first run's document matches the lookup pair, update
  have hs2 : save_metapost (store ++ [{ m1 with id := some f1 }]) t2 now2 pub2
      text_sum title_sum categories src siblings texts f2 =
      store ++ [{ m2 with id := some f1 }] := by
    rw [save_metapost, hm2]
    exact upsert_match_at_end m2 m2.type _ f2 { m1 with id := some f1 }
      ⟨by simpa using hm1t.trans hm2t.symm, by simpa using hm1v⟩ store
      (fun d hd hc => hstore d hd (hm2t ▸ hc.1))
  rw [hs1, hs2, List.filter_append]
  have hnil : store.filter (fun d => decide (d.type = "metapost." ++ src.type)) = [] :=
    List.filter_eq_nil_iff.mpr (fun d hd => by
      simpa using hstore d hd)
  rw [hnil]
  simp [hm2t]

theorem metapost_synthesis_idempotent_witness :
    mk_metapost_version ([sibC5].filter (fun p => decide (post_gen p ≤ 20))) =
      mk_metapost_version [sibC5] ∧
    ((save_metapost
        (save_metapost [] 10 "now1" "pub1" ("sum", 0) ("cap", 0) []
          srcC5 [sibC5] "some text." ⟨100, "f1"⟩)
        20 "now2" "pub2" ("sum", 0) ("cap", 0) [] srcC5 [sibC5] "some text."
        ⟨200, "f2"⟩).filter
      (fun d => decide (d.type = "metapost." ++ srcC5.type))).length = 1 := by
  exact metapost_synthesis_idempotent [] 10 20 "now1" "now2" "pub1" "pub2"
    ("sum", 0) ("cap", 0) [] srcC5 [sibC5] "some text." ⟨100, "f1"⟩ ⟨200, "f2"⟩
    (by decide) (by decide) (by decide) (by simp)

/-- `newsutils.helpers.dictdiff` applied to relationship-tier db values:
the set-of-frozen-dicts difference folded left over the previously assigned
tiers, `reduce(difference, [l, *prevs])`.  Python converts each operand to a
set of frozen dicts; the model is membership-faithful on the deduplicated
list (set iteration order is unspecified). -/
def dictdiff (l : List Ref) (prevs : List (List Ref)) : List Ref :=
  prevs.foldl (fun acc prev => acc.filter (fun r => decide (r ∉ prev))) l.dedup

/-- One entry of the `DayNlp.save_similarity` loop over `self.similarity`
(an ordered dict sorted by descending threshold): the tier's name
(`siblings` / `related`), its threshold, and the raw `(reference, score)`
output of the vectorization capability for the tier's params, already
converted to db format. -/
structure SimTier where
  name : String
  threshold : ℚ
  refs : List Ref
deriving DecidableEq, Repr

/-- The accumulating tier loop of `DayNlp.save_similarity` (lines 177-190):
`similar` holds the already-assigned tiers; each new tier's db value is its
raw result minus every previously assigned tier (`dictdiff`), unless
overlap mode is on. -/
def assign_tiers_go (overlap : Bool) (similar : List SimTier) :
    List SimTier → List SimTier
  | [] => similar
  | t :: rest =>
      let db_value := if overlap then t.refs
        else dictdiff t.refs (similar.map SimTier.refs)
      assign_tiers_go overlap (similar ++ [{ t with refs := db_value }]) rest

/-- The whole tier-assignment pass of `DayNlp.save_similarity` for one
source document. -/
def save_similarity_tiers (overlap : Bool) (tiers : List SimTier) : List SimTier :=
  assign_tiers_go overlap [] tiers

lemma foldl_filter_not_mem_iff (r : Ref) : ∀ (prevs : List (List Ref))
    (start : List Ref),
    r ∈ prevs.foldl (fun acc prev => acc.filter (fun x => decide (x ∉ prev))) start ↔
      r ∈ start ∧ ∀ p ∈ prevs, r ∉ p := by
  intro prevs
  induction prevs with
  | nil => intro start; simp
  | cons p rest ih =>
      intro start
      rw [List.foldl_cons, ih]
      simp only [List.mem_filter, decide_eq_true_eq, List.mem_cons]
      constructor
      · rintro ⟨⟨h1, h2⟩, h3⟩
        exact ⟨h1, fun q hq => by rcases hq with rfl | hq; exact h2; exact h3 q hq⟩
      · rintro ⟨h1, h2⟩
        exact ⟨⟨h1, h2 p (Or.inl rfl)⟩, fun q hq => h2 q (Or.inr hq)⟩

lemma mem_dictdiff (r : Ref) (l : List Ref) (prevs : List (List Ref)) :
    r ∈ dictdiff l prevs ↔ r ∈ l ∧ ∀ p ∈ prevs, r ∉ p := by
  rw [dictdiff, foldl_filter_not_mem_iff]
  simp

lemma assign_tiers_go_thresholds (overlap : Bool) : ∀ (rest acc : List SimTier),
    (assign_tiers_go overlap acc rest).map SimTier.threshold =
      acc.map SimTier.threshold ++ rest.map SimTier.threshold := by
  intro rest
  induction rest with
  | nil => intro acc; simp [assign_tiers_go]
  | cons t r ih =>
      intro acc
      rw [assign_tiers_go, ih]
      simp

lemma assign_tiers_go_refs_sub : ∀ (rest acc : List SimTier),
    ∀ t ∈ assign_tiers_go false acc rest,
      t ∈ acc ∨ ∃ t0 ∈ rest, ∀ r ∈ t.refs, r ∈ t0.refs := by
  intro rest
  induction rest with
  | nil => intro acc t ht; exact Or.inl ht
  | cons t0 r ih =>
      intro acc t ht
      rcases ih _ t ht with h | ⟨t1, ht1, hsub⟩
      · rcases List.mem_append.mp h with h | h
        · exact Or.inl h
        · refine Or.inr ⟨t0, List.mem_cons_self t0 r, fun x hx => ?_⟩
          have : t = { t0 with refs := dictdiff t0.refs (acc.map SimTier.refs) } := by
            simpa using h
          rw [this] at hx
          exact ((mem_dictdiff x t0.refs _).mp (by simpa using hx)).1
      · exact Or.inr ⟨t1, List.mem_cons_of_mem t0 ht1, hsub⟩

lemma assign_tiers_go_pairwise : ∀ (rest acc : List SimTier),
    acc.Pairwise (fun a b => ∀ r ∈ b.refs, r ∉ a.refs) →
    (assign_tiers_go false acc rest).Pairwise (fun a b => ∀ r ∈ b.refs, r ∉ a.refs) := by
  intro rest
  induction rest with
  | nil => intro acc h; exact h
  | cons t r ih =>
      intro acc h
      refine ih _ ?_
      rw [List.pairwise_append]
      refine ⟨h, List.pairwise_singleton _ _, ?_⟩
      intro a ha b hb x hx
      have hb' : b = { t with refs := dictdiff t.refs (acc.map SimTier.refs) } := by
        simpa using hb
      rw [hb'] at hx
      have := ((mem_dictdiff x t.refs _).mp (by simpa using hx)).2
      exact this a.refs (List.mem_map_of_mem SimTier.refs ha)

/-- C3: in non-overlap mode the assigned tiers are pairwise disjoint on
reference ids: for tiers ordered by descending threshold (as
`PostConfigMixin.similarity` builds them) and a deterministic vectorizer
(the score of a reference is a function of the reference alone, per corpus
snapshot — the contract of the vectorization capability), no reference id
assigned to a higher-threshold tier reappears in a lower-threshold tier. -/
theorem similarity_tiers_disjoint (tiers : List SimTier)
    (hdet : ∀ t1 ∈ tiers, ∀ t2 ∈ tiers, ∀ r1 ∈ t1.refs, ∀ r2 ∈ t2.refs,
      r1.rid = r2.rid → r1.score = r2.score)
    (hsort : (tiers.map SimTier.threshold).Sorted (· ≥ ·)) :
    ∀ i j (hi : i < (save_similarity_tiers false tiers).length)
      (hj : j < (save_similarity_tiers false tiers).length),
      ((save_similarity_tiers false tiers).get ⟨i, hi⟩).threshold >
        ((save_similarity_tiers false tiers).get ⟨j, hj⟩).threshold →
      ∀ rid : String,
        (∃ s, (⟨rid, s⟩ : Ref) ∈ ((save_similarity_tiers false tiers).get ⟨i, hi⟩).refs) →
        ¬ ∃ s, (⟨rid, s⟩ : Ref) ∈ ((save_similarity_tiers false tiers).get ⟨j, hj⟩).refs := by
  intro i j hi hj hgt rid hsi hsj
  obtain ⟨s1, hs1⟩ := hsi
  obtain ⟨s2, hs2⟩ := hsj
  have hth : (save_similarity_tiers false tiers).map SimTier.threshold =
      tiers.map SimTier.threshold := by
    rw [save_similarity_tiers, assign_tiers_go_thresholds]
    rfl
  have hpw := assign_tiers_go_pairwise tiers [] (List.Pairwise.nil)
  rw [← save_similarity_tiers] at hpw
  -- descending thresholds force i < j
  have hij : i < j := by
    rcases Nat.lt_trichotomy i j with h | h | h
    · exact h
    · subst h; exact absurd hgt (lt_irrefl _)
    · exfalso
      have hsout : ((save_similarity_tiers false tiers).map SimTier.threshold).Sorted
          (· ≥ ·) := by rw [hth]; exact hsort
      have hlen : j < ((save_similarity_tiers false tiers).map SimTier.threshold).length := by
        simpa using hj
      have hlen' : i < ((save_similarity_tiers false tiers).map SimTier.threshold).length := by
        simpa using hi
      have := List.pairwise_iff_get.mp hsout ⟨j, hlen⟩ ⟨i, hlen'⟩ h
      simp only [List.get_eq_getElem, List.getElem_map] at this
      simp only [List.get_eq_getElem] at hgt
      exact absurd hgt (not_lt.mpr this)
  -- the later tier excludes every pair already assigned to the earlier one
  have hR := List.pairwise_iff_get.mp hpw ⟨i, hi⟩ ⟨j, hj⟩ hij
  -- determinism of the vectorizer: the two pairs carry the same score
  have hsub := assign_tiers_go_refs_sub tiers []
  rw [← save_similarity_tiers] at hsub
  obtain ⟨ta, hta, hsuba⟩ :=
    (hsub _ (List.get_mem _ i hi)).resolve_left (by simp)
  obtain ⟨tb, htb, hsubb⟩ :=
    (hsub _ (List.get_mem _ j hj)).resolve_left (by simp)
  have hscore : s1 = s2 :=
    hdet ta hta tb htb ⟨rid, s1⟩ (hsuba _ hs1) ⟨rid, s2⟩ (hsubb _ hs2) rfl
  exact hR ⟨rid, s2⟩ hs2 (hscore ▸ hs1)

theorem similarity_tiers_disjoint_witness :
    ¬ ∃ s, (⟨"B", s⟩ : Ref) ∈
      ((save_similarity_tiers false
        [⟨"siblings", 2, [⟨"B", 5⟩]⟩, ⟨"related", 1, [⟨"B", 5⟩, ⟨"C", 3⟩]⟩]).get
        ⟨1, by decide⟩).refs := by
  exact similarity_tiers_disjoint
    [⟨"siblings", 2, [⟨"B", 5⟩]⟩, ⟨"related", 1, [⟨"B", 5⟩, ⟨"C", 3⟩]⟩]
    (by decide) (by decide) 0 1 (by decide) (by decide) (by decide) "B"
    ⟨5, by decide⟩

/-- Task types (`newsutils.conf.constants.TaskTypes`). -/
inductive TaskTypes
  | crawl_all
  | nlp
deriving DecidableEq, Repr

/-- Python `s.startswith(pre)`.  (`String.startsWith` works on utf8 bytes,
which the kernel cannot reduce; the character list carries the same
semantics.) -/
def starts_with (s pre : String) : Bool := pre.data.isPrefixOf s.data

/-- `Post.is_meta`: the document's type marks it synthetic
(`self[TYPE].startswith(METAPOST)`). -/
def Post.is_meta (p : Post) : Bool := starts_with p.type "metapost"

/-- The `filter_metapost` strategy
(`PostStrategyMixin.get_decision("filter_metapost")`): a metapost is
filtered out (dropped, `None`) when the task is an NLP task and the project
excludes metaposts from NLP inputs (`POSTS.NLP_USES_META`, default false). -/
def filter_metapost (post : Option Post) (task_type : Option TaskTypes)
    (nlp_uses_meta : Bool) : Option Post :=
  match post with
  | none => none
  | some p =>
      if p.is_meta && (task_type == some TaskTypes.nlp) && !nlp_uses_meta then
        none
      else some p

/-- String form of the store id a post carries, `str(post[db_id_field])`.
Posts loaded from the store always carry an id; an unset id is mapped
to `""`. -/
def post_id_str (p : Post) : String := (p.id.map Oid.idStr).getD ""

/-- The admissible argument forms of `Day.__getitem__` (`day[lookup]`):
a string, an ObjectId, a previously loaded `Post` instance, or an int index
into the loaded list. -/
inductive DayKey
  | by_str (s : String)
  | by_oid (o : Oid)
  | by_post (p : Post)
  | by_index (n : Int)

/-- `Day.__getitem__`: look a post up in the loaded posts.  String and
ObjectId lookups compare `str(p[db_id_field]) == str(lookup)`; an instance
lookup tests list membership; an int indexes the list with Python
semantics — the code catches `KeyError` only, so an out-of-range index
raises `IndexError` (modelled as `.error`). -/
def day_getitem (posts : List Post) : DayKey → Except String (Option Post)
  | .by_str s => .ok (posts.find? (fun p => decide (post_id_str p = s)))
  | .by_oid o => .ok (posts.find? (fun p => decide (post_id_str p = o.idStr)))
  | .by_post q => .ok (if q ∈ posts then some q else none)
  | .by_index n =>
      let i := if n < 0 then n + posts.length else n
      if h : 0 ≤ i ∧ i < posts.length then
        .ok (some (posts.get ⟨i.toNat, by omega⟩))
      else .error "IndexError"

/-- `Day.__setitem__` at an ObjectId location: destructive replace-or-append
on the loaded posts.  `self[loc]` finds the first post whose id string
matches; `self.posts.index(existed)` is that same first position (an equal
post occurring earlier would itself have matched first). -/
def day_setitem (posts : List Post) (loc : Oid) (post : Post) : List Post :=
  match posts.findIdx? (fun p => decide (post_id_str p = loc.idStr)) with
  | some i => posts.set i post
  | none => posts ++ [post]

/-- `Day.save`: upsert `post` through the store adapter, then reflect the
result in the in-memory partition.  The store interaction (match
construction, `update_or_create`, link-stamping transform) is external;
its outcome is the parameter `write_result` (`.ok` = the stored document,
`.error` = the write raised).  The whole body runs in a `try/except` that
logs and falls through, so the function itself never raises.  On a
successful write the code computes
`db_post_id = ObjectId(adapter.item[db_id_field])` from the *submitted*
item: every `mk_post` item carries the db id field (value `None` until
persisted, per the `ItemValue` defaults of `conf/utils.py`), and
`ObjectId(None)` generates a fresh ObjectId — the parameter `fresh`, which
by construction matches no loaded post, so the replace-or-append at that
location appends.  Memory is updated only when the `filter_metapost`
strategy keeps the stored document for the current task type. -/
def day_save (task_type : Option TaskTypes) (nlp_uses_meta : Bool)
    (posts : List Post) (post : Post) (write_result : Except String Post)
    (fresh : Oid) : List Post × Option Post :=
  match write_result with
  | .error _ => (posts, none)
  | .ok db_post =>
      let db_post_id := post.id.getD fresh
      match filter_metapost (some db_post) task_type nlp_uses_meta with
      | some _ => (day_setitem posts db_post_id db_post, some db_post)
      | none => (posts, some db_post)

lemma day_setitem_no_match (posts : List Post) (loc : Oid) (post : Post)
    (h : ∀ q ∈ posts, post_id_str q ≠ loc.idStr) :
    day_setitem posts loc post = posts ++ [post] := by
  have hnone : posts.findIdx? (fun p => decide (post_id_str p = loc.idStr)) = none := by
    rw [List.findIdx?_eq_none_iff]
    intro q hq
    simpa using h q hq
  rw [day_setitem, hnone]

/-- A stored metapost document used in the `Day.save` counterexample. -/
def dbC6 : Post :=
  { mk_post_defaults with
      id := some ⟨3, "m3"⟩, type := "metapost.default", short_link := "/m/1" }

/-- C6 counterexample: a successful write does not always update the
in-memory partition.  During an NLP run with `nlp_uses_meta = false`, a
metapost written successfully is filtered by the `filter_metapost` strategy
and memory stays unchanged, where the replace-or-append operation would
have appended the stored document. -/
theorem day_save_success_no_replace_counterexample :
    (day_save (some TaskTypes.nlp) false [] dbC6 (.ok dbC6) ⟨99, "fresh99"⟩).1 = [] ∧
    day_setitem [] ⟨3, "m3"⟩ dbC6 = [dbC6] ∧
    ([] : List Post) ≠ [dbC6] := by
  refine ⟨by decide, by decide, by decide⟩

/-- C6 amended: if the store write raises, the error is logged, the
in-memory post list is left exactly as it was and the call returns `None`
without raising; if the write succeeds, the in-memory partition is updated
via replace-or-append with the stored document whenever the stored document
passes the `filter_metapost` strategy for the current task type — at the
submitted item's store id when it carries one, and at a freshly generated
ObjectId (hence an append of the stored document) when the item's id is
`None`, i.e. on any fresh insert.  Only a successful write of a document
the strategy filters out (e.g. a metapost during an NLP run with
`nlp_uses_meta` unset) leaves memory unchanged. -/
theorem day_save_semantics (task_type : Option TaskTypes)
    (nlp_uses_meta : Bool) (posts : List Post) (post : Post)
    (write_result : Except String Post) (fresh : Oid) :
    (∀ e, write_result = .error e →
      day_save task_type nlp_uses_meta posts post write_result fresh =
        (posts, none)) ∧
    (∀ db, write_result = .ok db →
      (filter_metapost (some db) task_type nlp_uses_meta).isSome →
      day_save task_type nlp_uses_meta posts post write_result fresh =
        (day_setitem posts (post.id.getD fresh) db, some db)) ∧
    (∀ db, write_result = .ok db →
      filter_metapost (some db) task_type nlp_uses_meta = none →
      day_save task_type nlp_uses_meta posts post write_result fresh =
        (posts, some db)) ∧
    (∀ db : Post, post.id = none →
      (∀ q ∈ posts, post_id_str q ≠ fresh.idStr) →
      day_setitem posts (post.id.getD fresh) db = posts ++ [db]) := by
  refine ⟨fun e he => ?_, fun db hdb hfs => ?_, fun db hdb hf => ?_,
    fun db hid hfr => ?_⟩
  · rw [he]; rfl
  · rcases Option.isSome_iff_exists.mp hfs with ⟨x, hx⟩
    rw [hdb]
    simp [day_save, hx]
  · rw [hdb]
    simp [day_save, hf]
  · rw [hid]
    exact day_setitem_no_match posts fresh db hfr

theorem day_save_semantics_witness :
    day_save none true [dbC6] dbC6 (.error "network down") ⟨99, "fresh99"⟩ =
      ([dbC6], none) := by
  exact (day_save_semantics none true [dbC6] dbC6 (.error "network down")
    ⟨99, "fresh99"⟩).1 "network down" rfl

/-- A loaded post whose natural key differs from its store id string. -/
def pC9 : Post :=
  { mk_post_defaults with
      id := some ⟨1, "6283bcb2c176579f86acafb0"⟩, short_link := "/p/xyz",
      title := "T", text := "b" }

/-- C9 counterexample: looking a loaded document up by its natural key
returns none, not the document — `Day.__getitem__` compares string lookups
against `str(p[db_id_field])` only, and has no natural-key branch. -/
theorem day_getitem_natural_key_counterexample :
    pC9 ∈ [pC9] ∧
    day_getitem [pC9] (.by_str pC9.short_link) = .ok none := by
  refine ⟨by decide, ?_⟩
  rfl

lemma find?_id_unique (p : Post) : ∀ posts : List Post, p ∈ posts →
    (posts.map post_id_str).Nodup →
    posts.find? (fun q => decide (post_id_str q = post_id_str p)) = some p := by
  intro posts
  induction posts with
  | nil => intro h; exact absurd h (List.not_mem_nil p)
  | cons a rest ih =>
      intro hp hnd
      by_cases ha : post_id_str a = post_id_str p
      · have : a = p := by
          rcases List.mem_cons.mp hp with h | h
          · exact h.symm
          · exfalso
            have h1 : post_id_str p ∈ rest.map post_id_str :=
              List.mem_map_of_mem post_id_str h
            have h2 : post_id_str a ∉ rest.map post_id_str :=
              (List.nodup_cons.mp (by simpa using hnd)).1
            exact h2 (ha ▸ h1)
        rw [List.find?_cons_of_pos _ (by simpa using ha), this]
      · have hp' : p ∈ rest := by
          rcases List.mem_cons.mp hp with h | h
          · exact absurd (h ▸ rfl) ha
          · exact h
        rw [List.find?_cons_of_neg _ (by simpa using ha)]
        exact ih hp' (List.nodup_cons.mp (by simpa using hnd)).2

/-- C9 amended: the admissible key forms of `Day.__getitem__` are the store
id (string form or ObjectId) and the loaded instance itself — not the
natural key.  For a loaded document those lookups return the loaded copy
(store id strings being unique across the loaded set), and an id string or
instance matching no loaded document returns none without raising. -/
theorem day_getitem_semantics (posts : List Post) (p : Post) (o : Oid)
    (hp : p ∈ posts) (hid : p.id = some o)
    (huniq : (posts.map post_id_str).Nodup) :
    day_getitem posts (.by_str (post_id_str p)) = .ok (some p) ∧
    day_getitem posts (.by_oid o) = .ok (some p) ∧
    day_getitem posts (.by_post p) = .ok (some p) ∧
    (∀ s, (∀ q ∈ posts, post_id_str q ≠ s) →
      day_getitem posts (.by_str s) = .ok none) ∧
    (∀ q : Post, q ∉ posts → day_getitem posts (.by_post q) = .ok none) := by
  have hps : post_id_str p = o.idStr := by simp [post_id_str, hid]
  refine ⟨?_, ?_, ?_, fun s hs => ?_, fun q hq => ?_⟩
  · simp only [day_getitem]
    rw [find?_id_unique p posts hp huniq]
  · simp only [day_getitem]
    rw [← hps, find?_id_unique p posts hp huniq]
  · simp [day_getitem, hp]
  · simp only [day_getitem, Except.ok.injEq]
    rw [List.find?_eq_none]
    intro q hq
    simpa using hs q hq
  · simp [day_getitem, hq]

theorem day_getitem_semantics_witness :
    day_getitem [pC9] (.by_str (post_id_str pC9)) = .ok (some pC9) := by
  exact (day_getitem_semantics [pC9] pC9 ⟨1, "6283bcb2c176579f86acafb0"⟩
    (by decide) (by decide) (by decide)).1
